import Mathlib

/-!
# A verified model of `yellow-scraper.py`

A shallow embedding of the Yellow Pages scraper: an HTML document tree with
BeautifulSoup-style traversal (`find_all` / `find` by tag and CSS class,
`text`, attribute lookup), the extraction function `parse_restaurants`, the
paginator `get_next_page_url` (with a model of `urllib.parse.urljoin`), the
crawl loop `scrape_yellow_pages` (given fuel, since the Python loop has no
termination guard), the CSV writer `save_to_csv` (modelling Python's `csv`
module with its default dialect), and the `__main__` driver.
-/

/-- An HTML node, as BeautifulSoup presents it: an element with a tag, a list
of CSS classes, further attributes and children, or a bare string. -/
inductive Node where
  | elem (tag : String) (classes : List String) (attrs : List (String × String)) (children : List Node)
  | string (s : String)

/-- Whether a node is an element with the given tag carrying the given CSS
class, the match performed by `find_all(tag, class_=cls)`. -/
def Node.matchesTC (n : Node) (tag cls : String) : Bool :=
  match n with
  | .elem t cs _ _ => t == tag && cs.contains cls
  | .string _ => false

mutual
/-- Model of `soup.find_all(tag, class_=cls)`: every descendant element matching the
tag and class, in document (preorder) order.  The node itself is not a
candidate, matching BeautifulSoup's search over descendants. -/
def Node.findAll : Node → String → String → List Node
  | .string _, _, _ => []
  | .elem _ _ _ children, tag, cls => findAllList children tag cls
/-- The `find_all` search over a list of sibling nodes, in order. -/
def findAllList : List Node → String → String → List Node
  | [], _, _ => []
  | c :: rest, tag, cls =>
    (if c.matchesTC tag cls then [c] else []) ++ Node.findAll c tag cls ++ findAllList rest tag cls
end

/-- Model of `soup.find(tag, class_=cls)`: the first match of `find_all`, or `None`. -/
def Node.find (n : Node) (tag cls : String) : Option Node :=
  (n.findAll tag cls).head?

mutual
/-- The `.text` property: the concatenation of every string in the subtree. -/
def Node.text : Node → String
  | .string s => s
  | .elem _ _ _ children => textList children
/-- The `.text` property over a list of sibling nodes, concatenated in order. -/
def textList : List Node → String
  | [] => ""
  | c :: rest => c.text ++ textList rest
end

/-- Model of `tag.get(attr)`: the attribute's value, or `None` when absent. -/
def Node.get (n : Node) (attr : String) : Option String :=
  match n with
  | .elem _ _ attrs _ => attrs.lookup attr
  | .string _ => none

/-- Model of Python's `str.strip()`: drop leading and trailing whitespace
(Lean's `Char.isWhitespace` covers the space, tab, CR and LF cases that can
occur in scraped text). -/
def pyStrip (s : String) : String :=
  ⟨((s.data.dropWhile Char.isWhitespace).reverse.dropWhile Char.isWhitespace).reverse⟩

/-- The sentinel substituted when a listing block has no phone element. -/
def noPhoneSentinel : String := "No phone number available"

/-- The `(name, phone)` pair the loop body of `parse_restaurants` builds for
one `info` block whose name element exists: the trimmed text of the
`business-name` anchor, and the trimmed text of the `phones` div when that
div is present, the fixed sentinel otherwise. -/
def listingOf (info : Node) : String × String :=
  (((info.find "a" "business-name").map (fun nameEl => pyStrip nameEl.text)).getD "",
   match info.find "div" "phones" with
   | some phone_element => pyStrip phone_element.text
   | none => noPhoneSentinel)

/-- The loop body of `parse_restaurants`, over the list of `info` blocks.
Each block's `business-name` anchor is accessed unconditionally
(`.find(...).text` in the source), so a block without one makes the whole
extraction fault (`none`), before the website-link check is even used; a
block with a `track-visit-website` anchor is skipped, any other block
contributes its `(name, phone)` pair. -/
def parseBlocks : List Node → Option (List (String × String))
  | [] => some []
  | info :: rest =>
    match info.find "a" "business-name" with
    | none => none
    | some nameEl =>
      let restaurant_name := pyStrip nameEl.text
      let website_link := info.find "a" "track-visit-website"
      let phone_number :=
        match info.find "div" "phones" with
        | some phone_element => pyStrip phone_element.text
        | none => noPhoneSentinel
      match parseBlocks rest with
      | none => none
      | some tail =>
        some (if website_link.isNone then (restaurant_name, phone_number) :: tail else tail)

/-- Model of `parse_restaurants(soup)`: extract the `(name, phone)` pairs of the
listing blocks (`div.info`) that have no website link.  `none` models the
unhandled `AttributeError` raised when some block lacks its name element. -/
def parse_restaurants (soup : Node) : Option (List (String × String)) :=
  parseBlocks (soup.findAll "div" "info")

/-- The `info` blocks of a document that survive the website filter. -/
def includedBlocks (soup : Node) : List Node :=
  (soup.findAll "div" "info").filter (fun info => (info.find "a" "track-visit-website").isNone)

/-- Prefix test on the underlying characters: Python's `startswith`. -/
def strStartsWith (s p : String) : Bool :=
  p.data.isPrefixOf s.data

/-- The characters of a URL before `"://"` (its scheme), empty when no
`"://"` occurs. -/
def takeScheme : List Char → List Char
  | [] => []
  | ':' :: '/' :: '/' :: _ => []
  | c :: rest => c :: takeScheme rest

/-- The characters of a URL after `"://"`, empty when no `"://"` occurs. -/
def dropScheme : List Char → List Char
  | [] => []
  | ':' :: '/' :: '/' :: rest => rest
  | _ :: rest => dropScheme rest

/-- The host part of an absolute URL: what follows `"://"` up to the first
`/`. -/
def hostOf (base : String) : List Char :=
  (dropScheme base.data).takeWhile (fun c => c ≠ '/')

/-- The path part of an absolute URL: from the first `/` after the host. -/
def pathOf (base : String) : List Char :=
  (dropScheme base.data).dropWhile (fun c => c ≠ '/')

/-- A path with its last segment removed: `"/a/b"` becomes `"/a"`. -/
def dirOfPath (p : List Char) : List Char :=
  ((p.reverse.dropWhile (fun c => c ≠ '/')).drop 1).reverse

/-- Model of `urllib.parse.urljoin(base, url)` on the URL shapes this scraper
can produce (`base` an absolute http(s) URL, `url` nonempty): an absolute
http(s) `url` is returned unchanged; a protocol-relative `url` gets `base`'s
scheme; a root-relative `url` is appended to `base`'s scheme and host; any
other relative `url` replaces the last segment of `base`'s path. -/
def urljoin (base url : String) : String :=
  if strStartsWith url "http://" || strStartsWith url "https://" then url
  else if strStartsWith url "//" then ⟨takeScheme base.data⟩ ++ ":" ++ url
  else if strStartsWith url "/" then ⟨takeScheme base.data⟩ ++ "://" ++ ⟨hostOf base⟩ ++ url
  else ⟨takeScheme base.data⟩ ++ "://" ++ ⟨hostOf base⟩ ++ ⟨dirOfPath (pathOf base)⟩ ++ "/" ++ url

/-- Model of `get_next_page_url(soup, base_url)`: the href of the first `a.next`
anchor resolved against the base URL, or `None` when there is no such anchor
or its href is missing or empty (Python's truthiness test
`next_button.get("href")` rejects both `None` and `""`). -/
def get_next_page_url (soup : Node) (base_url : String) : Option String :=
  match soup.find "a" "next" with
  | none => none
  | some next_button =>
    match next_button.get "href" with
    | none => none
    | some href => if href = "" then none else some (urljoin base_url href)

/-- The hexadecimal digit (uppercase, as `urllib.parse.quote` emits) for a
value below 16. -/
def hexDigit (n : Nat) : Char :=
  if n < 10 then Char.ofNat (48 + n) else Char.ofNat (55 + n)

/-- The UTF-8 bytes of one character, as byte values. -/
def utf8Bytes (c : Char) : List Nat :=
  let n := c.toNat
  if n < 128 then [n]
  else if n < 2048 then [192 + n / 64, 128 + n % 64]
  else if n < 65536 then [224 + n / 4096, 128 + n / 64 % 64, 128 + n % 64]
  else [240 + n / 262144, 128 + n / 4096 % 64, 128 + n / 64 % 64, 128 + n % 64]

/-- How `urllib.parse.quote_plus` renders one UTF-8 byte: ASCII alphanumerics
and `_.-~` stay themselves, a space becomes `+`, anything else `%XX`. -/
def quoteByte (b : Nat) : String :=
  if (65 ≤ b && b ≤ 90) || (97 ≤ b && b ≤ 122) || (48 ≤ b && b ≤ 57)
      || b == 95 || b == 46 || b == 45 || b == 126 then
    String.singleton (Char.ofNat b)
  else if b == 32 then "+"
  else "%" ++ String.singleton (hexDigit (b / 16)) ++ String.singleton (hexDigit (b % 16))

/-- Model of `urllib.parse.quote_plus`: percent-encode the UTF-8 bytes of the
string, with spaces as `+`. -/
def quote_plus (s : String) : String :=
  String.join (s.data.map (fun c => String.join ((utf8Bytes c).map quoteByte)))

/-- The fixed base URL of `scrape_yellow_pages`. -/
def base_url : String := "https://www.yellowpages.com"

/-- The initial search URL built from the location argument. -/
def search_url (location : String) : String :=
  base_url ++ "/search?search_terms=restaurants&geo_location_terms=" ++ quote_plus location

/-- What the crawl loop can be observed to do: return the accumulated
listings, exit the process (`sys.exit(1)` in `fetch_page` on an HTTP
failure), fault (a listing block without a name element), or still be
running when the fuel runs out. -/
inductive CrawlResult where
  | ok (listings : List (String × String))
  | exitFail
  | fault
  | outOfFuel
deriving DecidableEq

/-- The environment the loop runs against: what each GET returns, `none`
modelling a failed request (`raise_for_status` or a transport error). -/
abbrev Fetcher := String → Option Node

/-- The `while search_url:` loop of `scrape_yellow_pages`, unrolled `fuel`
times from the given URL: fetch the page (exiting on failure), extract its
listings (faulting on a missing name element), and continue at the next-page
URL while `get_next_page_url` yields one.  Listings accumulate in page-visit
order; `outOfFuel` marks a loop that is still running. -/
def crawlFrom (fetch : Fetcher) (base : String) : Nat → String → CrawlResult
  | 0, _ => .outOfFuel
  | fuel + 1, url =>
    match fetch url with
    | none => .exitFail
    | some soup =>
      match parse_restaurants soup with
      | none => .fault
      | some restaurants =>
        match get_next_page_url soup base with
        | none => .ok restaurants
        | some next =>
          match crawlFrom fetch base fuel next with
          | .ok rest => .ok (restaurants ++ rest)
          | r => r

/-- Model of `scrape_yellow_pages(location)` against a fetch oracle, with fuel. -/
def scrape_yellow_pages (fetch : Fetcher) (location : String) (fuel : Nat) : CrawlResult :=
  crawlFrom fetch base_url fuel (search_url location)

/-- The URL the crawl loop visits at step `k` when started at `u0` (step 0
is `u0` itself), `none` once the chain of `next` links has stopped: some
earlier page failed to fetch or had no next link. -/
def visitUrl (fetch : Fetcher) (base : String) : Nat → String → Option String
  | 0, u0 => some u0
  | k + 1, u0 =>
    match fetch u0 with
    | none => none
    | some soup =>
      match get_next_page_url soup base with
      | none => none
      | some next => visitUrl fetch base k next

/-- Step `k` of the crawl succeeds: the chain reaches a URL there, its fetch
returns a document, and extraction on that document does not fault. -/
def GoodStep (fetch : Fetcher) (base u0 : String) (k : Nat) : Prop :=
  ∃ u soup rs, visitUrl fetch base k u0 = some u ∧ fetch u = some soup ∧
    parse_restaurants soup = some rs

/-- The listings page `k` contributes (empty when the chain has stopped or
the page cannot be fetched or parsed). -/
def pageListings (fetch : Fetcher) (base u0 : String) (k : Nat) : List (String × String) :=
  match visitUrl fetch base k u0 with
  | none => []
  | some u =>
    match fetch u with
    | none => []
    | some soup => (parse_restaurants soup).getD []

/-- One CSV field under Python's default `QUOTE_MINIMAL` dialect: quoted with
internal quotes doubled when it holds a comma, a quote, or a line break. -/
def csvField (s : String) : String :=
  if s.data.any (fun c => c == ',' || c == '"' || c == '\r' || c == '\n') then
    "\"" ++ ⟨s.data.flatMap (fun c => if c == '"' then ['"', '"'] else [c])⟩ ++ "\""
  else s

/-- One CSV row: the fields comma-separated, terminated by CRLF (the `csv`
module's default line terminator). -/
def csvRow (fields : List String) : String :=
  String.intercalate "," (fields.map csvField) ++ "\r\n"

/-- The bytes `save_to_csv` writes: the fixed header row, then — as the
`for name, phone in data` loop runs — one row per listing. -/
def csvContents (data : List (String × String)) : String :=
  data.foldl (fun acc r => acc ++ csvRow [r.1, r.2]) (csvRow ["Restaurant Name", "Phone Number"])

/-- Model of `save_to_csv(data, filename)` as a transformer of a name-to-contents file
system: `open(filename, 'w')` truncates, so the target file's previous
contents (if any) are irrelevant, and no other file changes. -/
def save_to_csv (data : List (String × String)) (filename : String)
    (fs : String → Option String) : String → Option String :=
  fun n => if n = filename then some (csvContents data) else fs n

/-- The output filename the `__main__` block builds from the location. -/
def output_filename (location : String) : String :=
  "restaurants_without_websites_" ++ quote_plus location ++ ".csv"

/-- What a whole run (with a location argument present) can be observed to
do: write one named file with given contents, exit nonzero from a failed
fetch, fault, or still be crawling when the fuel runs out. -/
inductive ProgramOutcome where
  | wrote (filename : String) (contents : String)
  | exitNonzero
  | fault
  | outOfFuel
deriving DecidableEq

/-- The `__main__` block, given the location argument: scrape, then write the
CSV.  Only a completed crawl reaches `save_to_csv`; an exit or fault produces
no file and discards everything accumulated. -/
def run_program (fetch : Fetcher) (location : String) (fuel : Nat) : ProgramOutcome :=
  match scrape_yellow_pages fetch location fuel with
  | .ok results => .wrote (output_filename location) (csvContents results)
  | .exitFail => .exitNonzero
  | .fault => .fault
  | .outOfFuel => .outOfFuel

/-! ## Extraction lemmas -/

/-- When every block has its name element, the loop body of
`parse_restaurants` produces exactly the website-less blocks' pairs, in
order. -/
theorem parseBlocks_eq (blocks : List Node)
    (h : ∀ info ∈ blocks, (info.find "a" "business-name").isSome) :
    parseBlocks blocks =
      some ((blocks.filter (fun i => (i.find "a" "track-visit-website").isNone)).map listingOf) := by
  induction blocks with
  | nil => rfl
  | cons info rest ih =>
    obtain ⟨nameEl, hn⟩ := Option.isSome_iff_exists.mp (h info (List.mem_cons_self _ _))
    have ihr := ih (fun i hi => h i (List.mem_cons_of_mem _ hi))
    simp only [parseBlocks, hn, ihr, List.filter_cons]
    cases hw : (info.find "a" "track-visit-website").isNone with
    | true => simp [listingOf, hn, hw]
    | false => simp [hw]

/-- The loop body of `parse_restaurants` succeeds exactly when every block
has its name element. -/
theorem parseBlocks_isSome_iff (blocks : List Node) :
    (parseBlocks blocks).isSome ↔ ∀ info ∈ blocks, (info.find "a" "business-name").isSome := by
  induction blocks with
  | nil => simp [parseBlocks]
  | cons info rest ih =>
    cases hn : info.find "a" "business-name" with
    | none => simp [parseBlocks, hn]
    | some nameEl =>
      simp only [parseBlocks, hn, List.forall_mem_cons, Option.isSome_some, true_and]
      rw [← ih]
      cases parseBlocks rest <;> simp

/-- A two-listing document: the first block carries a `track-visit-website`
anchor, the second does not. -/
def wsSoup : Node :=
  .elem "html" [] [] [
    .elem "div" ["info"] [] [
      .elem "a" ["business-name"] [] [.string " Site Place "],
      .elem "a" ["track-visit-website"] [("href", "http://site.example")] [],
      .elem "div" ["phones"] [] [.string "111"]],
    .elem "div" ["info"] [] [
      .elem "a" ["business-name"] [] [.string "No Site Place"],
      .elem "div" ["phones"] [] [.string " 222 "]]]

/-- A two-listing document: the first block has no `phones` div, the second
has one. -/
def phoneSoup : Node :=
  .elem "html" [] [] [
    .elem "div" ["info"] [] [
      .elem "a" ["business-name"] [] [.string "NoPhone Cafe"]],
    .elem "div" ["info"] [] [
      .elem "a" ["business-name"] [] [.string "Phone Cafe"],
      .elem "div" ["phones"] [] [.string " (555) 000-1111 "]]]

/-- C1: every listing block with a website-link element (an
`a.track-visit-website` anchor) is excluded from the output of
`parse_restaurants`, whatever its name or phone content, and every block
without one is included in document order (with its name and phone), under
the totality precondition that each block has its name element. -/
theorem parse_restaurants_website_filter (soup : Node)
    (hname : ∀ info ∈ soup.findAll "div" "info", (info.find "a" "business-name").isSome) :
    parse_restaurants soup = some ((includedBlocks soup).map listingOf) :=
  parseBlocks_eq _ hname

/-- Witness for C1 on a concrete two-listing document. -/
theorem parse_restaurants_website_filter_witness :
    parse_restaurants wsSoup = some ((includedBlocks wsSoup).map listingOf) :=
  parse_restaurants_website_filter wsSoup (by decide)

/-- C2: the phone value `parse_restaurants` returns for a listing is the
fixed sentinel `"No phone number available"` when the block has no
`div.phones` element, and the trimmed text of that element when present. -/
theorem parse_restaurants_phone_value (soup : Node)
    (hname : ∀ info ∈ soup.findAll "div" "info", (info.find "a" "business-name").isSome)
    (rs : List (String × String)) (hrs : parse_restaurants soup = some rs)
    (k : Nat) (hk : k < (includedBlocks soup).length) :
    (rs.getD k ("", "")).2 =
      match ((includedBlocks soup).getD k (Node.string "")).find "div" "phones" with
      | some phone_element => pyStrip phone_element.text
      | none => "No phone number available" := by
  have hchar : parse_restaurants soup = some ((includedBlocks soup).map listingOf) :=
    parseBlocks_eq _ hname
  rw [hrs] at hchar
  obtain rfl : rs = (includedBlocks soup).map listingOf := Option.some.inj hchar
  have hk2 : k < ((includedBlocks soup).map listingOf).length := by simpa using hk
  rw [List.getD_eq_getElem _ _ hk2, List.getElem_map, List.getD_eq_getElem _ _ hk]
  cases h : ((includedBlocks soup)[k]).find "div" "phones" <;>
    simp [listingOf, h, noPhoneSentinel]

/-- Witness for C2 on a concrete document whose first included block has no
phone element. -/
theorem parse_restaurants_phone_value_witness :
    (([("NoPhone Cafe", "No phone number available"),
       ("Phone Cafe", "(555) 000-1111")].getD 0 ("", "")).2) =
      match ((includedBlocks phoneSoup).getD 0 (Node.string "")).find "div" "phones" with
      | some phone_element => pyStrip phone_element.text
      | none => "No phone number available" :=
  parse_restaurants_phone_value phoneSoup (by decide)
    [("NoPhone Cafe", "No phone number available"), ("Phone Cafe", "(555) 000-1111")]
    (by decide) 0 (by decide)

/-- C9: `parse_restaurants` accesses each block's name element before the
website-link check, so it is total exactly when every listing block —
website-bearing blocks included — has a `business-name` anchor; a single
block without one faults the whole extraction. -/
theorem parse_restaurants_total_iff_names (soup : Node) :
    (parse_restaurants soup).isSome ↔
      ∀ info ∈ soup.findAll "div" "info", (info.find "a" "business-name").isSome :=
  parseBlocks_isSome_iff _


/-! ## Pagination lemmas -/

/-- A string starting with `/` starts with neither `http://` nor
`https://`. -/
theorem slash_not_http (s : String) (h : strStartsWith s "/" = true) :
    (strStartsWith s "http://" || strStartsWith s "https://") = false := by
  unfold strStartsWith at h ⊢
  rw [show ("/").data = ['/'] from rfl] at h
  cases hd : s.data with
  | nil => rw [hd] at h; simp [List.isPrefixOf] at h
  | cons c t =>
    rw [hd] at h
    simp only [List.isPrefixOf, Bool.and_eq_true, beq_iff_eq] at h
    obtain ⟨rfl, -⟩ := h
    rw [show ("http://").data = ['h', 't', 't', 'p', ':', '/', '/'] from rfl,
        show ("https://").data = ['h', 't', 't', 'p', 's', ':', '/', '/'] from rfl]
    simp [List.isPrefixOf]

/-- A string with a nonempty prefix is nonempty. -/
theorem startsWith_ne_empty (s p : String) (c : Char) (rest : List Char)
    (hp : p.data = c :: rest) (h : strStartsWith s p = true) : s ≠ "" := by
  intro heq
  rw [heq] at h
  unfold strStartsWith at h
  rw [hp] at h
  simp [List.isPrefixOf] at h

/-- C4: with base URL `https://www.yellowpages.com`, a `next` anchor with the
relative href `/search?page=2` resolves to exactly
`https://www.yellowpages.com/search?page=2`; more generally an absolute
http(s) href is returned as-is by `get_next_page_url`, and a root-relative
href is resolved against the base URL. -/
theorem get_next_page_url_resolves (soup nb : Node) (href : String)
    (h1 : soup.find "a" "next" = some nb) (h2 : nb.get "href" = some href) :
    (href = "/search?page=2" →
      get_next_page_url soup "https://www.yellowpages.com" =
        some "https://www.yellowpages.com/search?page=2") ∧
    ((strStartsWith href "http://" || strStartsWith href "https://") = true →
      get_next_page_url soup "https://www.yellowpages.com" = some href) ∧
    (strStartsWith href "/" = true → strStartsWith href "//" = false →
      get_next_page_url soup "https://www.yellowpages.com" =
        some ("https://www.yellowpages.com" ++ href)) := by
  refine ⟨?_, ?_, ?_⟩
  · rintro rfl
    simp only [get_next_page_url, h1, h2]
    decide
  · intro hab
    have hne : href ≠ "" := by
      intro heq; rw [heq] at hab; exact absurd hab (by decide)
    simp only [get_next_page_url, h1, h2, if_neg hne]
    unfold urljoin
    rw [if_pos hab]
  · intro h hss
    have hff := slash_not_http href h
    have hne : href ≠ "" := startsWith_ne_empty href "/" '/' [] rfl h
    simp only [get_next_page_url, h1, h2, if_neg hne]
    simp only [urljoin, hff, hss, h, Bool.false_eq_true, if_false, if_true]
    rfl

/-- Witness for C4: a document whose `next` anchor carries
`/search?page=2`. -/
theorem get_next_page_url_resolves_witness :
    get_next_page_url
        (Node.elem "html" [] [] [Node.elem "a" ["next"] [("href", "/search?page=2")] []])
        "https://www.yellowpages.com" =
      some "https://www.yellowpages.com/search?page=2" :=
  (get_next_page_url_resolves
      (Node.elem "html" [] [] [Node.elem "a" ["next"] [("href", "/search?page=2")] []])
      (Node.elem "a" ["next"] [("href", "/search?page=2")] []) "/search?page=2"
      rfl rfl).1 rfl

/-- C10: a `next` anchor whose href attribute is present but empty is
treated like an absent href: `get_next_page_url` yields the termination
marker instead of resolving the empty href. -/
theorem get_next_page_url_empty_href (soup nb : Node) (base : String)
    (h1 : soup.find "a" "next" = some nb) (h2 : nb.get "href" = some "") :
    get_next_page_url soup base = none := by
  simp [get_next_page_url, h1, h2]

/-- Witness for C10: a document whose `next` anchor has `href=""`. -/
theorem get_next_page_url_empty_href_witness :
    get_next_page_url (Node.elem "html" [] [] [Node.elem "a" ["next"] [("href", "")] []])
      base_url = none :=
  get_next_page_url_empty_href
    (Node.elem "html" [] [] [Node.elem "a" ["next"] [("href", "")] []])
    (Node.elem "a" ["next"] [("href", "")] []) base_url rfl rfl

/-- A single-listing document with no `next` anchor. -/
def noNextSoup : Node :=
  .elem "html" [] [] [
    .elem "div" ["info"] [] [
      .elem "a" ["business-name"] [] [.string "A"],
      .elem "div" ["phones"] [] [.string "1"]]]

/-- C5: a document with no `next` element, or whose `next` element lacks an
href, makes `get_next_page_url` return the termination marker, so the crawl
loop ends right after processing that page, with its extracted listings in
the result. -/
theorem get_next_page_url_none_ends_loop (soup : Node) (base : String)
    (h : soup.find "a" "next" = none ∨
      ∃ nb, soup.find "a" "next" = some nb ∧ nb.get "href" = none) :
    get_next_page_url soup base = none ∧
    ∀ (fetch : Fetcher) (u : String) (rs : List (String × String)) (fuel : Nat),
      fetch u = some soup → parse_restaurants soup = some rs →
      crawlFrom fetch base (fuel + 1) u = .ok rs := by
  have hnone : get_next_page_url soup base = none := by
    rcases h with h | ⟨nb, hnb, hhref⟩
    · simp [get_next_page_url, h]
    · simp [get_next_page_url, hnb, hhref]
  refine ⟨hnone, ?_⟩
  intro fetch u rs fuel hf hp
  simp [crawlFrom, hf, hp, hnone]

/-- Witness for C5: a one-page crawl over a document without a `next`
anchor. -/
theorem get_next_page_url_none_ends_loop_witness :
    crawlFrom (fun _ => some noNextSoup) base_url 4 "https://start.example" =
      .ok [("A", "1")] :=
  (get_next_page_url_none_ends_loop noNextSoup base_url (Or.inl rfl)).2
    (fun _ => some noNextSoup) "https://start.example" [("A", "1")] 3 rfl (by decide)

/-! ## Crawl-loop lemmas -/

/-- A successful first page shifts the visit chain by one step. -/
theorem visitUrl_step (fetch : Fetcher) (base u0 u1 : String) (soup : Node) (k : Nat)
    (hf : fetch u0 = some soup) (hn : get_next_page_url soup base = some u1) :
    visitUrl fetch base (k + 1) u0 = visitUrl fetch base k u1 := by
  simp [visitUrl, hf, hn]

/-- A successful first page shifts `GoodStep` by one step. -/
theorem goodStep_step (fetch : Fetcher) (base u0 u1 : String) (soup : Node) (k : Nat)
    (hf : fetch u0 = some soup) (hn : get_next_page_url soup base = some u1) :
    GoodStep fetch base u0 (k + 1) ↔ GoodStep fetch base u1 k := by
  unfold GoodStep
  rw [visitUrl_step fetch base u0 u1 soup k hf hn]

/-- A successful first page shifts `pageListings` by one step. -/
theorem pageListings_step (fetch : Fetcher) (base u0 u1 : String) (soup : Node) (k : Nat)
    (hf : fetch u0 = some soup) (hn : get_next_page_url soup base = some u1) :
    pageListings fetch base u0 (k + 1) = pageListings fetch base u1 k := by
  unfold pageListings
  rw [visitUrl_step fetch base u0 u1 soup k hf hn]

/-- Step 0 is good exactly when the start URL fetches and parses. -/
theorem goodStep_zero (fetch : Fetcher) (base u0 : String) :
    GoodStep fetch base u0 0 ↔
      ∃ soup rs, fetch u0 = some soup ∧ parse_restaurants soup = some rs := by
  constructor
  · rintro ⟨u, soup, rs, hu, hf, hp⟩
    simp only [visitUrl, Option.some.injEq] at hu
    subst hu
    exact ⟨soup, rs, hf, hp⟩
  · rintro ⟨soup, rs, hf, hp⟩
    exact ⟨u0, soup, rs, rfl, hf, hp⟩

/-- Peeling the first index off a `flatMap` over `List.range`. -/
theorem flatMap_range_succ_shift {α : Type} (f : Nat → List α) (n : Nat) :
    (List.range (n + 1)).flatMap f = f 0 ++ (List.range n).flatMap (fun k => f (k + 1)) := by
  rw [List.range_succ_eq_map, List.flatMap_cons, List.flatMap_map]

/-- When the chain of next links stops after page `n` (every step up to `n`
fetches and parses, and page `n` has no next link), the loop returns, for
any sufficient fuel, the per-page listings concatenated in page-visit
order. -/
theorem crawlFrom_finite (fetch : Fetcher) (base : String) :
    ∀ (n : Nat) (u0 : String),
      (∀ k, k ≤ n → GoodStep fetch base u0 k) →
      visitUrl fetch base (n + 1) u0 = none →
      ∀ fuel, n < fuel →
        crawlFrom fetch base fuel u0 =
          .ok ((List.range (n + 1)).flatMap (pageListings fetch base u0)) := by
  intro n
  induction n with
  | zero =>
    intro u0 hgood hstop fuel hfuel
    obtain ⟨soup, rs, hf, hp⟩ := (goodStep_zero fetch base u0).mp (hgood 0 (Nat.le_refl 0))
    have hnext : get_next_page_url soup base = none := by
      rcases hnn : get_next_page_url soup base with _ | u1
      · rfl
      · simp [visitUrl, hf, hnn] at hstop
    obtain ⟨f, rfl⟩ : ∃ f, fuel = f + 1 := ⟨fuel - 1, by omega⟩
    simp only [crawlFrom, hf, hp, hnext]
    rw [show List.range 1 = [0] from rfl, List.flatMap_cons, List.flatMap_nil]
    simp [pageListings, visitUrl, hf, hp]
  | succ n ih =>
    intro u0 hgood hstop fuel hfuel
    obtain ⟨soup, rs, hf, hp⟩ := (goodStep_zero fetch base u0).mp (hgood 0 (Nat.zero_le _))
    obtain ⟨u1', s1, rs1, hu1, hf1, hp1⟩ := hgood (0 + 1) (by omega)
    rcases hnn : get_next_page_url soup base with _ | u1
    · exfalso; simp [visitUrl, hf, hnn] at hu1
    · have hstop' : visitUrl fetch base (n + 1) u1 = none := by
        rw [visitUrl_step fetch base u0 u1 soup (n + 1) hf hnn] at hstop
        exact hstop
      have hgood' : ∀ k, k ≤ n → GoodStep fetch base u1 k := fun k hk =>
        (goodStep_step fetch base u0 u1 soup k hf hnn).mp (hgood (k + 1) (by omega))
      obtain ⟨f, rfl⟩ : ∃ f, fuel = f + 1 := ⟨fuel - 1, by omega⟩
      have hrec := ih u1 hgood' hstop' f (by omega)
      simp only [crawlFrom, hf, hp, hnn, hrec]
      congr 1
      rw [flatMap_range_succ_shift (pageListings fetch base u0) (n + 1)]
      congr 1
      · simp [pageListings, visitUrl, hf, hp]
      · have heq : (fun k => pageListings fetch base u0 (k + 1)) =
            (fun k => pageListings fetch base u1 k) :=
          funext (fun k => pageListings_step fetch base u0 u1 soup k hf hnn)
        rw [heq]

/-- When every step of the chain succeeds and has a next link, the loop
never returns: however much fuel it gets, it is still running. -/
theorem crawlFrom_infinite (fetch : Fetcher) (base : String) :
    ∀ (fuel : Nat) (u0 : String),
      (∀ k, GoodStep fetch base u0 k) →
      crawlFrom fetch base fuel u0 = .outOfFuel := by
  intro fuel
  induction fuel with
  | zero => intro u0 _; rfl
  | succ f ih =>
    intro u0 hgood
    obtain ⟨soup, rs, hf, hp⟩ := (goodStep_zero fetch base u0).mp (hgood 0)
    obtain ⟨u1', s1, rs1, hu1, hf1, hp1⟩ := hgood (0 + 1)
    rcases hnn : get_next_page_url soup base with _ | u1
    · exfalso; simp [visitUrl, hf, hnn] at hu1
    · have hr := ih u1 (fun k => (goodStep_step fetch base u0 u1 soup k hf hnn).mp (hgood (k + 1)))
      simp [crawlFrom, hf, hp, hnn, hr]

/-- A failed fetch at visited page `k` (after `k` good pages) aborts the
whole loop with the process-exit outcome. -/
theorem crawlFrom_fetch_fail (fetch : Fetcher) (base : String) :
    ∀ (k : Nat) (u0 u : String),
      (∀ j, j < k → GoodStep fetch base u0 j) →
      visitUrl fetch base k u0 = some u → fetch u = none →
      ∀ fuel, k < fuel → crawlFrom fetch base fuel u0 = .exitFail := by
  intro k
  induction k with
  | zero =>
    intro u0 u hgood hu hfail fuel hfuel
    have heq : u0 = u := by simpa [visitUrl] using hu
    subst heq
    obtain ⟨f, rfl⟩ : ∃ f, fuel = f + 1 := ⟨fuel - 1, by omega⟩
    simp [crawlFrom, hfail]
  | succ k ih =>
    intro u0 u hgood hu hfail fuel hfuel
    obtain ⟨soup, rs, hf, hp⟩ := (goodStep_zero fetch base u0).mp (hgood 0 (by omega))
    rcases hnn : get_next_page_url soup base with _ | u1
    · exfalso; simp [visitUrl, hf, hnn] at hu
    · have hu' : visitUrl fetch base k u1 = some u := by
        simpa [visitUrl, hf, hnn] using hu
      have hgood' : ∀ j, j < k → GoodStep fetch base u1 j := fun j hj =>
        (goodStep_step fetch base u0 u1 soup j hf hnn).mp (hgood (j + 1) (by omega))
      obtain ⟨f, rfl⟩ : ∃ f, fuel = f + 1 := ⟨fuel - 1, by omega⟩
      have hr := ih u1 u hgood' hu' hfail f (by omega)
      simp [crawlFrom, hf, hp, hnn, hr]

/-- C3: when the chain of next links from the initial search URL is finite
(`n` good steps, none after page `n`), `scrape_yellow_pages` terminates —
its value is independent of any fuel beyond `n` — and returns the per-page
extraction results concatenated in page-visit order; when the chain never
ends, it never terminates: every fuel leaves it still running. -/
theorem scrape_yellow_pages_pagination (fetch : Fetcher) (location : String) :
    (∀ n : Nat,
      (∀ k, k ≤ n → GoodStep fetch base_url (search_url location) k) →
      visitUrl fetch base_url (n + 1) (search_url location) = none →
      ∀ fuel, n < fuel →
        scrape_yellow_pages fetch location fuel =
          .ok ((List.range (n + 1)).flatMap
            (pageListings fetch base_url (search_url location)))) ∧
    ((∀ k, GoodStep fetch base_url (search_url location) k) →
      ∀ fuel, scrape_yellow_pages fetch location fuel = .outOfFuel) := by
  constructor
  · intro n hgood hstop fuel hfuel
    exact crawlFrom_finite fetch base_url n (search_url location) hgood hstop fuel hfuel
  · intro hgood fuel
    exact crawlFrom_infinite fetch base_url fuel (search_url location) hgood

/-- First page of the two-page witness crawl: one listing, a next link. -/
def pageOne : Node :=
  .elem "html" [] [] [
    .elem "div" ["info"] [] [
      .elem "a" ["business-name"] [] [.string "A"],
      .elem "div" ["phones"] [] [.string "1"]],
    .elem "a" ["next"] [("href", "/page2")] []]

/-- Second page of the two-page witness crawl: one listing, no next link. -/
def pageTwo : Node :=
  .elem "html" [] [] [
    .elem "div" ["info"] [] [
      .elem "a" ["business-name"] [] [.string "B"],
      .elem "div" ["phones"] [] [.string "2"]]]

/-- A fetch oracle serving exactly the two-page chain. -/
def twoPageFetch : Fetcher := fun u =>
  if u = search_url "Springfield" then some pageOne
  else if u = "https://www.yellowpages.com/page2" then some pageTwo
  else none

/-- Witness for C3 on the concrete two-page crawl. -/
theorem scrape_yellow_pages_pagination_witness :
    scrape_yellow_pages twoPageFetch "Springfield" 5 =
      .ok ((List.range 2).flatMap
        (pageListings twoPageFetch base_url (search_url "Springfield"))) := by
  refine (scrape_yellow_pages_pagination twoPageFetch "Springfield").1 1 ?_ ?_ 5 (by omega)
  · intro k hk
    match k, hk with
    | 0, _ =>
      exact ⟨search_url "Springfield", pageOne, [("A", "1")], rfl, rfl, by decide⟩
    | 1, _ =>
      exact ⟨"https://www.yellowpages.com/page2", pageTwo, [("B", "2")], by decide, rfl, by decide⟩
    | n + 2, h => exact absurd h (by omega)
  · decide

/-- C6: if any visited page's HTTP fetch fails — the first request (`k = 0`)
or any later one — the run exits nonzero: no CSV file is written and every
listing accumulated from the earlier pages is discarded. -/
theorem fetch_failure_exits_nonzero (fetch : Fetcher) (location : String) (k : Nat) (u : String)
    (hgood : ∀ j, j < k → GoodStep fetch base_url (search_url location) j)
    (hu : visitUrl fetch base_url k (search_url location) = some u)
    (hfail : fetch u = none) :
    ∀ fuel, k < fuel → run_program fetch location fuel = .exitNonzero := by
  intro fuel hfuel
  have h := crawlFrom_fetch_fail fetch base_url k (search_url location) u hgood hu hfail fuel hfuel
  simp [run_program, scrape_yellow_pages, h]

/-- Witness for C6: every request fails, so the very first page aborts the
run. -/
theorem fetch_failure_exits_nonzero_witness :
    run_program (fun _ => none) "Springfield" 3 = .exitNonzero :=
  fetch_failure_exits_nonzero (fun _ => none) "Springfield" 0 (search_url "Springfield")
    (fun j hj => absurd hj (by omega)) rfl rfl 3 (by omega)

/-! ## Writer lemmas -/

/-- The CSV rows of the listings, concatenated in input order. -/
def csvRowsConcat : List (String × String) → String
  | [] => ""
  | r :: t => csvRow [r.1, r.2] ++ csvRowsConcat t

/-- The writer's `foldl` appends the rows, in order, after whatever it
starts from. -/
theorem csvContents_foldl (l : List (String × String)) :
    ∀ init : String,
      l.foldl (fun acc r => acc ++ csvRow [r.1, r.2]) init = init ++ csvRowsConcat l := by
  induction l with
  | nil => intro init; simp [csvRowsConcat, String.append_empty]
  | cons a t ih =>
    intro init
    simp only [List.foldl_cons, csvRowsConcat, ih (init ++ csvRow [a.1, a.2]),
      String.append_assoc]

/-- C7: `save_to_csv` maps the target file to exactly the fixed header row
`Restaurant Name,Phone Number` followed by one CSV row per listing in input
order — whatever the file previously held (the `'w'` mode truncates) — and
leaves every other file unchanged. -/
theorem save_to_csv_spec (data : List (String × String)) (filename : String)
    (fs : String → Option String) :
    save_to_csv data filename fs filename =
      some (csvRow ["Restaurant Name", "Phone Number"] ++ csvRowsConcat data) ∧
    ∀ n, n ≠ filename → save_to_csv data filename fs n = fs n := by
  constructor
  · simp [save_to_csv, csvContents, csvContents_foldl]
  · intro n hn
    simp [save_to_csv, hn]

/-- Witness for C7: one listing written over a file system where the target
file already exists with different contents; another file is untouched. -/
theorem save_to_csv_spec_witness :
    save_to_csv [("A", "1")] "out.csv" (fun _ => some "old") "out.csv" =
      some (csvRow ["Restaurant Name", "Phone Number"] ++ csvRowsConcat [("A", "1")]) ∧
    save_to_csv [("A", "1")] "out.csv" (fun _ => some "old") "other.csv" = some "old" :=
  ⟨(save_to_csv_spec [("A", "1")] "out.csv" (fun _ => some "old")).1,
   (save_to_csv_spec [("A", "1")] "out.csv" (fun _ => some "old")).2 "other.csv" (by decide)⟩

/-! ## End-to-end scenario -/

/-- The single-page Chicago document: one listing with a website link, one
without (name `Joe's Diner`, phone `(312) 555-0100`). -/
def chicagoDoc : Node :=
  .elem "html" [] [] [
    .elem "div" ["info"] [] [
      .elem "a" ["business-name"] [] [.string "Web Cafe"],
      .elem "a" ["track-visit-website"] [("href", "http://webcafe.example")] [],
      .elem "div" ["phones"] [] [.string "(312) 555-0199"]],
    .elem "div" ["info"] [] [
      .elem "a" ["business-name"] [] [.string "Joe's Diner"],
      .elem "div" ["phones"] [] [.string "(312) 555-0100"]]]

/-- A fetch oracle serving the Chicago document at the search URL. -/
def chicagoFetch : Fetcher := fun u =>
  if u = search_url "Chicago, IL" then some chicagoDoc else none

/-- C8: on location `Chicago, IL` and the single-page two-listing document,
the program writes the file `restaurants_without_websites_Chicago%2C+IL.csv`
(the location encoded by `quote_plus`: the space as `+`, the comma as
`%2C`), containing exactly the header row and the one row
`Joe's Diner,(312) 555-0100`. -/
theorem end_to_end_chicago :
    run_program chicagoFetch "Chicago, IL" 1 =
      .wrote "restaurants_without_websites_Chicago%2C+IL.csv"
        "Restaurant Name,Phone Number\r\nJoe's Diner,(312) 555-0100\r\n" := by
  decide
